import Mathlib

/-!
Verification of the session lifecycle and timeout-tracking subsystem of the
WalletConnect backend SDK.  The definitions below are shallow embeddings of
the TypeScript source files:

* `src/core/WalletConnectSDK.ts` — the `WalletConnectSDK` class (registry,
  `connect`, `disconnect`, operation facade, `validateSession`, `destroy`,
  the `session_connect` approval handler, `restoreSessions`) and the
  `SimpleDatabase` in-memory database adapter;
* `src/utils/TimeoutManager.ts` — `TimeoutManager`, `TimeoutError`,
  `createProgressTracker`;
* `src/storage/MemoryStorage.ts` — the TTL-based `cleanup` sweep.

Timestamps are modelled as natural-number milliseconds.  The live
WalletConnect client object held by a session is modelled by a numeric
identity (`wcClient : Nat`), since the SDK only ever compares client
references and forwards opaque calls through them.  External effects
(the handshake URI returned by the relay, whether a remote call succeeds,
transport results) are passed in as explicit parameters.
-/

namespace WCSDK

/-- Session record, from `UserSession` in `src/types` / its use in
`WalletConnectSDK.ts`.  `topic?: string` is an optional field; a JavaScript
truthiness test `if (!session.topic)` treats both `undefined` and the empty
string as absent, captured by `topicTruthy` below. -/
structure UserSession where
  userId : String
  wcClient : Nat
  topic : Option String := none
  address : Option String := none
  sessionData : Option String := none
  isActive : Bool
  createdAt : Nat
  updatedAt : Nat
  lastActivity : Nat
deriving Repr, DecidableEq

/-- JavaScript truthiness of the optional `topic` field. -/
def topicTruthy : Option String → Bool
  | none => false
  | some s => s ≠ ""

/-- The in-memory registry `userSessions : Map<string, UserSession>` and the
`SimpleDatabase.sessions` map, modelled as association lists in insertion
order (as a JavaScript `Map` iterates). -/
abbrev Registry := List (String × UserSession)

/-- `Map.get`. -/
def mapGet (reg : Registry) (k : String) : Option UserSession :=
  match reg with
  | [] => none
  | p :: rest => if p.1 = k then some p.2 else mapGet rest k

/-- `Map.set`: overwrites in place if the key is present, appends otherwise
(JavaScript `Map` insertion-order semantics). -/
def mapSet : Registry → String → UserSession → Registry
  | [], k, v => [(k, v)]
  | p :: rest, k, v => if p.1 = k then (k, v) :: rest else p :: mapSet rest k v

/-- `Map.delete`. -/
def mapDelete : Registry → String → Registry
  | [], _ => []
  | p :: rest, k => if p.1 = k then mapDelete rest k else p :: mapDelete rest k

/-- Number of entries stored under a key. -/
def countKey : Registry → String → Nat
  | [], _ => 0
  | p :: rest, k => (if p.1 = k then 1 else 0) + countKey rest k

/-- The 24-hour session expiry window used by `validateSession` and
`SimpleDatabase.cleanupExpiredSessions` (`24 * 60 * 60 * 1000` ms). -/
def maxSessionAge : Nat := 24 * 60 * 60 * 1000

/-- `WalletConnectSDK.validateSession`.  Returns the boolean result together
with the (possibly mutated) session: the source mutates `session.isActive`
in place when the age check fails.  JavaScript computes `now - lastActivity`
on signed numbers; a negative age is never `> maxAge`, matching truncated
natural subtraction. -/
def validateSession (now : Nat) (s : UserSession) : Bool × UserSession :=
  if s.isActive = false then (false, s)
  else if topicTruthy s.topic = false then (false, s)
  else if now - s.lastActivity > maxSessionAge then
    (false, { s with isActive := false })
  else (true, s)

/-- `WalletConnectSDK.isConnected`.  The session object validated in place
is the one stored in the registry, so the returned registry reflects any
mutation done by `validateSession`. -/
def isConnected (now : Nat) (reg : Registry) (uid : String) : Bool × Registry :=
  match mapGet reg uid with
  | none => (false, reg)
  | some s =>
    let vs := validateSession now s
    (vs.1, mapSet reg uid vs.2)

/-- `WalletConnectSDK.getSession`: `session && validateSession(session) ?
session : null`, again with the in-place mutation reflected in the returned
registry. -/
def getSession (now : Nat) (reg : Registry) (uid : String) :
    Option UserSession × Registry :=
  match mapGet reg uid with
  | none => (none, reg)
  | some s =>
    let vs := validateSession now s
    (if vs.1 then some vs.2 else none, mapSet reg uid vs.2)

/-- A user has a currently valid session (the condition under which the
operation facade proceeds past its `getSession` guard). -/
def hasValidSession (now : Nat) (reg : Registry) (uid : String) : Bool :=
  (getSession now reg uid).1.isSome

-- Basic lemmas about the registry operations.

theorem mapGet_mem {reg : Registry} {k : String} {v : UserSession}
    (h : mapGet reg k = some v) : (k, v) ∈ reg := by
  induction reg with
  | nil => simp [mapGet] at h
  | cons p rest ih =>
    rw [mapGet] at h
    by_cases hk : p.1 = k
    · rw [if_pos hk] at h
      have hv : p.2 = v := Option.some.inj h
      have hp : (k, v) = p := by
        cases p
        simp only at hk hv
        rw [hk, hv]
      rw [hp]
      exact List.mem_cons_self _ _
    · rw [if_neg hk] at h
      exact List.mem_cons_of_mem _ (ih h)

theorem mem_mapSet {reg : Registry} {k : String} {v : UserSession}
    {p : String × UserSession} (h : p ∈ mapSet reg k v) :
    p = (k, v) ∨ p ∈ reg := by
  induction reg with
  | nil =>
    rw [mapSet] at h
    left
    simpa using h
  | cons q rest ih =>
    rw [mapSet] at h
    by_cases hk : q.1 = k
    · rw [if_pos hk] at h
      rcases List.mem_cons.mp h with h | h
      · left; exact h
      · right; exact List.mem_cons_of_mem _ h
    · rw [if_neg hk] at h
      rcases List.mem_cons.mp h with h | h
      · right; exact h ▸ List.mem_cons_self _ _
      · rcases ih h with h | h
        · left; exact h
        · right; exact List.mem_cons_of_mem _ h

theorem mapGet_mapSet_self (reg : Registry) (k : String) (v : UserSession) :
    mapGet (mapSet reg k v) k = some v := by
  induction reg with
  | nil => simp [mapSet, mapGet]
  | cons p rest ih =>
    rw [mapSet]
    by_cases hk : p.1 = k
    · rw [if_pos hk, mapGet, if_pos rfl]
    · rw [if_neg hk, mapGet, if_neg hk]
      exact ih

theorem countKey_mapSet_le (reg : Registry) (k : String) (v : UserSession)
    (h : countKey reg k ≤ 1) : countKey (mapSet reg k v) k ≤ 1 := by
  induction reg with
  | nil => simp [mapSet, countKey]
  | cons p rest ih =>
    rw [mapSet]
    rw [countKey] at h
    by_cases hk : p.1 = k
    · rw [if_pos hk]
      rw [countKey, if_pos rfl]
      rw [if_pos hk] at h
      omega
    · rw [if_neg hk]
      rw [countKey, if_neg hk]
      rw [if_neg hk] at h
      have := ih (by omega)
      omega

theorem countKey_nil (k : String) : countKey [] k = 0 := rfl

/-! ## TimeoutManager (`src/utils/TimeoutManager.ts`) -/

/-- The keys of `TimeoutConfig`. -/
inductive TimeoutKind
  | connection | transaction | signing | contractCall | contractRead
  | gasEstimation | sessionExpiry | cleanup
deriving Repr, DecidableEq

/-- `TimeoutConfig`, durations in milliseconds. -/
structure TimeoutConfig where
  connection : Nat
  transaction : Nat
  signing : Nat
  contractCall : Nat
  contractRead : Nat
  gasEstimation : Nat
  sessionExpiry : Nat
  cleanup : Nat
deriving Repr, DecidableEq

/-- `DEFAULT_TIMEOUTS`. -/
def DEFAULT_TIMEOUTS : TimeoutConfig :=
  { connection := 30000
    transaction := 60000
    signing := 30000
    contractCall := 60000
    contractRead := 15000
    gasEstimation := 15000
    sessionExpiry := 24 * 60 * 60 * 1000
    cleanup := 5 * 60 * 1000 }

/-- `TimeoutManager.getTimeout`: `this.timeouts[type]`. -/
def getTimeout (cfg : TimeoutConfig) : TimeoutKind → Nat
  | .connection => cfg.connection
  | .transaction => cfg.transaction
  | .signing => cfg.signing
  | .contractCall => cfg.contractCall
  | .contractRead => cfg.contractRead
  | .gasEstimation => cfg.gasEstimation
  | .sessionExpiry => cfg.sessionExpiry
  | .cleanup => cfg.cleanup

/-- The `TimeoutError` class: it stores a message, the operation key and the
duration, and nothing else. -/
structure TimeoutError where
  message : String
  operation : String
  timeout : Nat
deriving Repr, DecidableEq

/-- The exact `TimeoutError` value constructed inside
`TimeoutManager.createTimeout` when the timer for `key` fires:
`new TimeoutError(operation + " timed out after " + timeout + "ms",
operation, timeout)` where `timeout = this.timeouts[timeoutType]`. -/
def timeoutErrorOf (cfg : TimeoutConfig) (key : String) (kind : TimeoutKind) :
    TimeoutError :=
  { message := key ++ " timed out after " ++ toString (getTimeout cfg kind) ++ "ms"
    operation := key
    timeout := getTimeout cfg kind }

/-- Settlement outcome of `TimeoutManager.createTimeout`, which races the
tracked operation against a `setTimeout` for the configured duration.  The
underlying operation is modelled by the instant at which it settles relative
to the start of the race (`none` = it never settles) and by its value
(`Except` distinguishes a rejection from a resolution).  If the operation
settles strictly before the deadline it wins the race and its result is
propagated unchanged; otherwise the timer fires and the race rejects with
the `TimeoutError` above. -/
def createTimeoutOutcome (cfg : TimeoutConfig) (key : String)
    (settleAt : Option Nat) (value : Except String String)
    (kind : TimeoutKind) : Except TimeoutError (Except String String) :=
  match settleAt with
  | none => Except.error (timeoutErrorOf cfg key kind)
  | some t =>
    if t < getTimeout cfg kind then Except.ok value
    else Except.error (timeoutErrorOf cfg key kind)

/-- The private timer table `timers : Map<string, NodeJS.Timeout>`, with
timer handles modelled as numbers. -/
abbrev TimerTable := List (String × Nat)

/-- Timer-table lookup (`Map.get`). -/
def tGet : TimerTable → String → Option Nat
  | [], _ => none
  | p :: rest, k => if p.1 = k then some p.2 else tGet rest k

/-- Timer-table `Map.set`. -/
def tSet : TimerTable → String → Nat → TimerTable
  | [], k, v => [(k, v)]
  | p :: rest, k, v => if p.1 = k then (k, v) :: rest else p :: tSet rest k v

/-- Timer-table `Map.delete`. -/
def tDelete : TimerTable → String → TimerTable
  | [], _ => []
  | p :: rest, k => if p.1 = k then tDelete rest k else p :: tDelete rest k

/-- The timer table as left behind by `createTimeout` once the race settles:
the `setTimeout` handle is stored under `key` when the race starts, and the
`finally` block clears the timer and deletes the entry. -/
def timersAfterTrack (timers : TimerTable) (key : String) (handle : Nat) :
    TimerTable :=
  tDelete (tSet timers key handle) key

/-- `TimeoutManager.clearAllTimers`: clears and deletes every entry. -/
def clearAllTimers (_timers : TimerTable) : TimerTable := []

/-- `TimeoutManager.formatTimeout`.  `Math.round(x)` on a non-negative
number is `⌊x + 1/2⌋`, giving the integer arithmetic below. -/
def formatTimeout (d : Nat) : String :=
  if d < 1000 then toString d ++ "ms"
  else if d < 60000 then toString ((d + 500) / 1000) ++ "s"
  else toString ((d + 30000) / 60000) ++ "m"

/-- `createProgressTracker(operation, timeout).getProgress()` evaluated at
instant `now`, for a tracker seeded at `startTime`:
`Math.round(Math.min((elapsed / timeout) * 100, 100))`.  Times are signed
(JavaScript numbers); `Math.round` on rationals is `round` (both are
`⌊x + 1/2⌋`). -/
def ppGetProgress (startTime timeout now : ℤ) : ℤ :=
  round (min (((now - startTime : ℤ) : ℚ) / ((timeout : ℤ) : ℚ) * 100) 100)

/-- `createProgressTracker(...).getRemaining()`:
`Math.max(endTime - now, 0)` with `endTime = startTime + timeout`. -/
def ppGetRemaining (startTime timeout now : ℤ) : ℤ :=
  max (startTime + timeout - now) 0

/-- `createProgressTracker(...).isExpired()`: `Date.now() >= endTime`. -/
def ppIsExpired (startTime timeout now : ℤ) : Bool :=
  decide (now ≥ startTime + timeout)

/-! ## connect / disconnect (`WalletConnectSDK.ts`) -/

/-- The shape of `ConnectionResponse` as actually populated by `connect`
(the short-circuit path sets `topic: existing.topic || ''` and `uri: ''`;
the fresh path sets `topic: uri`). -/
structure ConnectionResponse where
  success : Bool
  uri : String := ""
  qrCode : String := ""
  topic : String := ""
  timeout : Nat := 0
  error : Option String := none
deriving Repr, DecidableEq

/-- The JavaScript guard `!uri || uri.trim() === ''` of `connect`: the URI
is empty or consists only of whitespace.  (Stated on the character list;
`String.trim` itself is defined by well-founded recursion in Lean and does
not compute definitionally.) -/
def trimEmpty (s : String) : Bool :=
  s.data.all Char.isWhitespace

/-- The fresh-handshake tail of `WalletConnectSDK.connect`, entered when no
valid existing session short-circuits the call.  External effects are
explicit parameters: `newClient` is the identity of the client object built
by `createWalletConnectClient`, `handshake` is the outcome of
`wcClient.connect` (the pairing URI, or the message of a thrown error — a
failure of client creation itself is folded into the same `error` case,
since both land in the same `catch`), and `qr` is the pure rendering done by
the external `qrcode` library.  Returns the response, the updated registry,
the updated `SimpleDatabase` map, and whether a handshake was opened. -/
def connectFresh (cfg : TimeoutConfig) (now : Nat) (newClient : Nat)
    (handshake : Except String String) (qr : String → String)
    (reg db : Registry) (uid : String) :
    ConnectionResponse × Registry × Registry × Bool :=
  match handshake with
  | Except.error e => ({ success := false, error := some e }, reg, db, true)
  | Except.ok uri =>
    if trimEmpty uri then
      ({ success := false
         error := some "Invalid connection URI received from WalletConnect" },
       reg, db, true)
    else
      let s : UserSession :=
        { userId := uid
          wcClient := newClient
          isActive := false
          createdAt := now
          updatedAt := now
          lastActivity := now }
      ({ success := true
         uri := uri
         qrCode := qr uri
         topic := uri
         timeout := getTimeout cfg TimeoutKind.connection },
       mapSet reg uid s, mapSet db uid s, true)

/-- `WalletConnectSDK.connect`.  If the user already holds a session that
passes `validateSession`, the call returns the existing session's topic with
no new handshake; otherwise it falls through to the fresh-handshake path
(after the in-place `isActive` mutation possibly done by `validateSession`
on an expired session is written back). -/
def connect (cfg : TimeoutConfig) (now : Nat) (newClient : Nat)
    (handshake : Except String String) (qr : String → String)
    (reg db : Registry) (uid : String) :
    ConnectionResponse × Registry × Registry × Bool :=
  match mapGet reg uid with
  | some s =>
    let vs := validateSession now s
    if vs.1 then
      ({ success := true
         uri := ""
         topic := vs.2.topic.getD ""
         timeout := getTimeout cfg TimeoutKind.connection }, reg, db, false)
    else
      connectFresh cfg now newClient handshake qr (mapSet reg uid vs.2) db uid
  | none => connectFresh cfg now newClient handshake qr reg db uid

/-- `WalletConnectSDK.disconnect`.  `remoteThrows` models whether the
awaited `wcClient.disconnect` call rejects (it is only reached when the
session has a truthy `topic`).  A rejection lands in the `catch` block,
which returns `false` without touching the registry or the database; the
deletions only run after the remote call returns. -/
def disconnect (remoteThrows : Bool) (reg db : Registry) (uid : String) :
    Bool × Registry × Registry :=
  match mapGet reg uid with
  | none => (false, reg, db)
  | some s =>
    if topicTruthy s.topic && remoteThrows then (false, reg, db)
    else (true, mapDelete reg uid, mapDelete db uid)

/-! ## Database / storage sweeps -/

/-- `SimpleDatabase.cleanupExpiredSessions` (`WalletConnectSDK.ts`):
deletes every record with `now - session.lastActivity.getTime() > maxAge`
where `maxAge` is fixed at 24 hours; there is no return value, so the
function is modelled by the resulting session map alone. -/
def cleanupExpiredSessions (now : Nat) : Registry → Registry
  | [] => []
  | p :: rest =>
    if now - p.2.lastActivity > maxSessionAge then
      cleanupExpiredSessions now rest
    else
      p :: cleanupExpiredSessions now rest

/-- A stored item of `MemoryStorage` (`src/storage/MemoryStorage.ts`):
`{value, createdAt, updatedAt, expiresAt}` where `expiresAt` is only set
when a TTL was supplied to `setItem`. -/
structure MemItem (α : Type) where
  value : α
  createdAt : Nat
  updatedAt : Nat
  expiresAt : Option Nat
deriving Repr, DecidableEq

/-- The expiry test used by `MemoryStorage.cleanup`:
`item.expiresAt && now > item.expiresAt`. -/
def itemExpired (now : Nat) (it : MemItem α) : Bool :=
  match it.expiresAt with
  | none => false
  | some e => now > e

/-- `MemoryStorage.cleanup`: removes every item whose `expiresAt` has
passed and returns the number removed. -/
def memCleanup (now : Nat) :
    List (String × MemItem α) → List (String × MemItem α) × Nat
  | [] => ([], 0)
  | p :: rest =>
    let r := memCleanup now rest
    if itemExpired now p.2 then (r.1, r.2 + 1) else (p :: r.1, r.2)

/-! ## Operation facade (`WalletConnectSDK.ts`) -/

/-- Common response shape of the operation facade methods
(`TransactionResponse`, `SignResponse`, `ContractCallResponse`,
`ContractReadResponse`, the `estimateGas` result). -/
structure OpResponse where
  success : Bool
  hash : Option String := none
  signature : Option String := none
  data : Option String := none
  gas : Option String := none
  error : Option String := none
deriving Repr, DecidableEq

/-- The response produced when the `getSession` guard fails: the method
throws `WalletConnectSDKError('User not connected', SESSION_NOT_FOUND)`,
which its own `catch` turns into `{success: false, error: error.message}`. -/
def notConnectedResponse : OpResponse :=
  { success := false, error := some "User not connected" }

/-- `WalletConnectSDK.sendTransaction`.  `transport` is the outcome of the
awaited `wcClient.request` JSON-RPC round trip (`Except.error` = the call
rejected; its message is what the `catch` reports).  The returned `Bool`
records whether the transport was invoked at all.  The registry component
carries the write-back of any in-place mutation done by `getSession`'s
validity check. -/
def sendTransaction (now : Nat) (transport : Except String String)
    (reg : Registry) (uid : String) : OpResponse × Registry × Bool :=
  let gs := getSession now reg uid
  match gs.1 with
  | none => (notConnectedResponse, gs.2, false)
  | some s =>
    if topicTruthy s.topic = false then (notConnectedResponse, gs.2, false)
    else
      match transport with
      | Except.ok h => ({ success := true, hash := some h }, gs.2, true)
      | Except.error e => ({ success := false, error := some e }, gs.2, true)

/-- `WalletConnectSDK.signMessage` (same guard, `personal_sign` request). -/
def signMessage (now : Nat) (transport : Except String String)
    (reg : Registry) (uid : String) : OpResponse × Registry × Bool :=
  let gs := getSession now reg uid
  match gs.1 with
  | none => (notConnectedResponse, gs.2, false)
  | some s =>
    if topicTruthy s.topic = false then (notConnectedResponse, gs.2, false)
    else
      match transport with
      | Except.ok sig => ({ success := true, signature := some sig }, gs.2, true)
      | Except.error e => ({ success := false, error := some e }, gs.2, true)

/-- `WalletConnectSDK.signTypedData` (same guard, `eth_signTypedData`). -/
def signTypedData (now : Nat) (transport : Except String String)
    (reg : Registry) (uid : String) : OpResponse × Registry × Bool :=
  let gs := getSession now reg uid
  match gs.1 with
  | none => (notConnectedResponse, gs.2, false)
  | some s =>
    if topicTruthy s.topic = false then (notConnectedResponse, gs.2, false)
    else
      match transport with
      | Except.ok sig => ({ success := true, signature := some sig }, gs.2, true)
      | Except.error e => ({ success := false, error := some e }, gs.2, true)

/-- `WalletConnectSDK.callContract`.  `encodeResult` is the outcome of the
external `encodeFunctionData` codec call (which runs before any transport
and may throw); `transport` as in `sendTransaction`. -/
def callContract (now : Nat) (encodeResult : Except String String)
    (transport : Except String String)
    (reg : Registry) (uid : String) : OpResponse × Registry × Bool :=
  let gs := getSession now reg uid
  match gs.1 with
  | none => (notConnectedResponse, gs.2, false)
  | some s =>
    if topicTruthy s.topic = false then (notConnectedResponse, gs.2, false)
    else
      match encodeResult with
      | Except.error e => ({ success := false, error := some e }, gs.2, false)
      | Except.ok _ =>
        match transport with
        | Except.ok h => ({ success := true, hash := some h }, gs.2, true)
        | Except.error e => ({ success := false, error := some e }, gs.2, true)

/-- `WalletConnectSDK.readContract`: encode, `eth_call` transport, then
`decodeFunctionData` on the raw result (`decodeResult` is that second codec
call's outcome, only reached when the transport resolved). -/
def readContract (now : Nat) (encodeResult : Except String String)
    (transport : Except String String) (decodeResult : Except String String)
    (reg : Registry) (uid : String) : OpResponse × Registry × Bool :=
  let gs := getSession now reg uid
  match gs.1 with
  | none => (notConnectedResponse, gs.2, false)
  | some s =>
    if topicTruthy s.topic = false then (notConnectedResponse, gs.2, false)
    else
      match encodeResult with
      | Except.error e => ({ success := false, error := some e }, gs.2, false)
      | Except.ok _ =>
        match transport with
        | Except.error e => ({ success := false, error := some e }, gs.2, true)
        | Except.ok _ =>
          match decodeResult with
          | Except.ok d => ({ success := true, data := some d }, gs.2, true)
          | Except.error e => ({ success := false, error := some e }, gs.2, true)

/-- `WalletConnectSDK.estimateGas`.  The transport is wrapped in
`timeoutManager.waitForGasEstimation`, so its outcome is either a
`TimeoutError` (reported through the dedicated timed-out message) or the
request's own resolution/rejection.  The `BigInt(result)` conversion is
kept as the raw result string. -/
def estimateGas (now : Nat) (encodeResult : Except String String)
    (outcome : Except TimeoutError (Except String String))
    (reg : Registry) (uid : String) : OpResponse × Registry × Bool :=
  let gs := getSession now reg uid
  match gs.1 with
  | none => (notConnectedResponse, gs.2, false)
  | some s =>
    if topicTruthy s.topic = false then (notConnectedResponse, gs.2, false)
    else
      match encodeResult with
      | Except.error e => ({ success := false, error := some e }, gs.2, false)
      | Except.ok _ =>
        match outcome with
        | Except.error te =>
          ({ success := false
             error := some ("Gas estimation timed out after " ++
               formatTimeout te.timeout) }, gs.2, true)
        | Except.ok (Except.ok r) =>
          ({ success := true, gas := some r }, gs.2, true)
        | Except.ok (Except.error e) =>
          ({ success := false, error := some e }, gs.2, true)

/-! ## Approval handler, restoration, teardown (`WalletConnectSDK.ts`) -/

/-- The `session_connect` handler installed in `createWalletConnectClient`.
It scans the registry for the session holding the client instance that
raised the event (`userSession.wcClient === client`), then mutates that
session in place: `topic`, `isActive := true`, `sessionData`, `updatedAt`,
`lastActivity`, and — when the approval payload lists accounts — `address`
from `accounts[0].split(':')[2]`. -/
def sessionConnectHandler (now : Nat) (clientId : Nat) (eventTopic : String)
    (payload : String) (accounts : List String) (reg : Registry) : Registry :=
  match reg.find? (fun p => p.2.wcClient == clientId) with
  | none => reg
  | some p =>
    let addr := match accounts with
      | [] => p.2.address
      | a :: _ => (a.splitOn ":").get? 2
    mapSet reg p.1
      { p.2 with
        topic := some eventTopic
        isActive := true
        sessionData := some payload
        updatedAt := now
        lastActivity := now
        address := addr }

/-- `WalletConnectSDK.restoreSessions`: for each stored session that still
passes `validateSession`, reconstruct a protocol client and register the
session (keyed by `session.userId`) with `isActive := true`.
`freshClient` yields the new client identity, or `none` when
`createWalletConnectClient` throws — in which case the surrounding `catch`
aborts the remainder of the loop. -/
def restoreSessions (now : Nat) (freshClient : String → Option Nat) :
    Registry → Registry → Registry
  | [], reg => reg
  | p :: rest, reg =>
    let vs := validateSession now p.2
    if vs.1 then
      match freshClient p.2.userId with
      | none => reg
      | some c =>
        restoreSessions now freshClient rest
          (mapSet reg p.2.userId { vs.2 with wcClient := c, isActive := true })
    else restoreSessions now freshClient rest reg

/-- The mutable state of a `WalletConnectSDK` instance that `destroy`
touches: the session registry, the `SimpleDatabase` map, the
`TimeoutManager`'s timer table, the periodic cleanup interval handle, and
the database connection flag. -/
structure SDKState where
  reg : Registry
  db : Registry
  timers : TimerTable
  cleanupInterval : Option Nat
  dbConnected : Bool
deriving Repr, DecidableEq

/-- The `for (const [userId] of this.userSessions.entries()) await
this.disconnect(userId)` loop of `destroy`, iterating over the keys present
when the loop starts.  `throws` says, per user, whether that session's
remote `wcClient.disconnect` call rejects. -/
def destroyLoop (throws : String → Bool) :
    List String → Registry → Registry → Registry × Registry
  | [], reg, db => (reg, db)
  | u :: rest, reg, db =>
    let d := disconnect (throws u) reg db u
    destroyLoop throws rest d.2.1 d.2.2

/-- `WalletConnectSDK.destroy`: clears the periodic cleanup interval,
disconnects every registered user in turn, then disconnects the database.
It never calls `timeoutManager.clearAllTimers()`, so the timer table is
carried over unchanged. -/
def destroy (throws : String → Bool) (st : SDKState) : SDKState :=
  let rd := destroyLoop throws (st.reg.map Prod.fst) st.reg st.db
  { reg := rd.1
    db := rd.2
    timers := st.timers
    cleanupInterval := none
    dbConnected := false }

/-! ## Helper lemmas -/

theorem validateSession_fst_true {now : Nat} {s : UserSession}
    (h : (validateSession now s).1 = true) :
    (validateSession now s).2 = s ∧ s.isActive = true ∧
      topicTruthy s.topic = true ∧ now - s.lastActivity ≤ maxSessionAge := by
  unfold validateSession at h ⊢
  split_ifs at h ⊢ with h1 h2 h3
  refine ⟨rfl, ?_, ?_, ?_⟩
  · cases hA : s.isActive
    · exact absurd hA h1
    · rfl
  · cases hT : topicTruthy s.topic
    · exact absurd hT h2
    · rfl
  · omega

theorem validateSession_snd_cases (now : Nat) (s : UserSession) :
    (validateSession now s).2 = s ∨
      (validateSession now s).2 = { s with isActive := false } := by
  unfold validateSession
  split_ifs
  · exact Or.inl rfl
  · exact Or.inl rfl
  · exact Or.inr rfl
  · exact Or.inl rfl

theorem getSession_valid {now : Nat} {reg : Registry} {uid : String}
    {s : UserSession} (hget : mapGet reg uid = some s)
    (hvalid : (validateSession now s).1 = true) :
    getSession now reg uid = (some s, mapSet reg uid s) := by
  unfold getSession
  rw [hget]
  have hs := (validateSession_fst_true hvalid).1
  simp only [hvalid, hs, if_true]

theorem mapGet_mapDelete (reg : Registry) (k : String) :
    mapGet (mapDelete reg k) k = none := by
  induction reg with
  | nil => rfl
  | cons p rest ih =>
    rw [mapDelete]
    by_cases hk : p.1 = k
    · rw [if_pos hk]; exact ih
    · rw [if_neg hk, mapGet, if_neg hk]; exact ih

theorem tGet_tDelete (tt : TimerTable) (k : String) :
    tGet (tDelete tt k) k = none := by
  induction tt with
  | nil => rfl
  | cons p rest ih =>
    rw [tDelete]
    by_cases hk : p.1 = k
    · rw [if_pos hk]; exact ih
    · rw [if_neg hk, tGet, if_neg hk]; exact ih

/-! ## Claims -/

/-- C10: `validateSession` is not a pure query — on a session whose
`lastActivity` age exceeds the 24-hour maximum (and which reaches the age
check, i.e. is active with a truthy topic), it sets `isActive := false` in
place before returning `false`; consequently `isConnected(userId)` both
reports `false` and changes the registry's stored session. -/
theorem C10_validateSession_mutates (now : Nat) (reg : Registry)
    (uid : String) (s : UserSession) (hget : mapGet reg uid = some s)
    (hA : s.isActive = true) (hT : topicTruthy s.topic = true)
    (hAge : now - s.lastActivity > maxSessionAge) :
    validateSession now s = (false, { s with isActive := false }) ∧
    (isConnected now reg uid).1 = false ∧
    mapGet (isConnected now reg uid).2 uid =
      some { s with isActive := false } ∧
    ({ s with isActive := false } : UserSession) ≠ s := by
  have hv : validateSession now s = (false, { s with isActive := false }) := by
    unfold validateSession
    rw [if_neg (by simp [hA]), if_neg (by simp [hT]), if_pos hAge]
  refine ⟨hv, ?_, ?_, ?_⟩
  · unfold isConnected
    rw [hget]
    simp only [hv]
  · unfold isConnected
    rw [hget]
    simp only [hv]
    exact mapGet_mapSet_self reg uid _
  · intro hcontra
    have hfalse : ({ s with isActive := false } : UserSession).isActive =
        s.isActive := by rw [hcontra]
    rw [hA] at hfalse
    exact Bool.false_ne_true hfalse

/-- A concrete approved session whose `lastActivity` is at time 0, used by
several witnesses. -/
def staleDemoSession : UserSession :=
  { userId := "u1", wcClient := 0, topic := some "t", isActive := true,
    createdAt := 0, updatedAt := 0, lastActivity := 0 }

/-- Witness for C10 at a concrete expired session. -/
theorem C10_witness :
    mapGet [("u1", staleDemoSession)] "u1" = some staleDemoSession ∧
    staleDemoSession.isActive = true ∧
    topicTruthy staleDemoSession.topic = true ∧
    maxSessionAge + 1 - staleDemoSession.lastActivity > maxSessionAge ∧
    (validateSession (maxSessionAge + 1) staleDemoSession =
        (false, { staleDemoSession with isActive := false }) ∧
      (isConnected (maxSessionAge + 1) [("u1", staleDemoSession)] "u1").1 =
        false ∧
      mapGet (isConnected (maxSessionAge + 1)
          [("u1", staleDemoSession)] "u1").2 "u1" =
        some { staleDemoSession with isActive := false } ∧
      ({ staleDemoSession with isActive := false } : UserSession) ≠
        staleDemoSession) :=
  ⟨rfl, rfl, by decide, by decide,
    C10_validateSession_mutates (maxSessionAge + 1) [("u1", staleDemoSession)]
      "u1" staleDemoSession rfl rfl (by decide) (by decide)⟩

/-- C3: every operation facade method (`sendTransaction`, `signMessage`,
`signTypedData`, `callContract`, `readContract`, `estimateGas`) called for
a `userId` with no currently valid session resolves with
`{success: false, error: "User not connected"}`, invokes no transport
(third component `false`), and — being a total function of its inputs —
never throws to the caller, whatever the would-be codec and transport
outcomes are. -/
theorem C3_not_connected (now : Nat) (reg : Registry) (uid : String)
    (tx msg typed enc tr dec : Except String String)
    (gasOutcome : Except TimeoutError (Except String String))
    (h : hasValidSession now reg uid = false) :
    notConnectedResponse.success = false ∧
    notConnectedResponse.error = some "User not connected" ∧
    sendTransaction now tx reg uid =
      (notConnectedResponse, (getSession now reg uid).2, false) ∧
    signMessage now msg reg uid =
      (notConnectedResponse, (getSession now reg uid).2, false) ∧
    signTypedData now typed reg uid =
      (notConnectedResponse, (getSession now reg uid).2, false) ∧
    callContract now enc tr reg uid =
      (notConnectedResponse, (getSession now reg uid).2, false) ∧
    readContract now enc tr dec reg uid =
      (notConnectedResponse, (getSession now reg uid).2, false) ∧
    estimateGas now enc gasOutcome reg uid =
      (notConnectedResponse, (getSession now reg uid).2, false) := by
  have hnone : (getSession now reg uid).1 = none := by
    unfold hasValidSession at h
    cases hx : (getSession now reg uid).1
    · rfl
    · rw [hx] at h
      simp at h
  refine ⟨rfl, rfl, ?_, ?_, ?_, ?_, ?_, ?_⟩
  · unfold sendTransaction
    simp only [hnone]
  · unfold signMessage
    simp only [hnone]
  · unfold signTypedData
    simp only [hnone]
  · unfold callContract
    simp only [hnone]
  · unfold readContract
    simp only [hnone]
  · unfold estimateGas
    simp only [hnone]

/-- Witness for C3: a user with no session at all. -/
theorem C3_witness :
    hasValidSession 0 [] "ghost" = false ∧
    (notConnectedResponse.success = false ∧
      notConnectedResponse.error = some "User not connected" ∧
      sendTransaction 0 (Except.ok "h") [] "ghost" =
        (notConnectedResponse, (getSession 0 [] "ghost").2, false) ∧
      signMessage 0 (Except.ok "s") [] "ghost" =
        (notConnectedResponse, (getSession 0 [] "ghost").2, false) ∧
      signTypedData 0 (Except.ok "s") [] "ghost" =
        (notConnectedResponse, (getSession 0 [] "ghost").2, false) ∧
      callContract 0 (Except.ok "d") (Except.ok "h") [] "ghost" =
        (notConnectedResponse, (getSession 0 [] "ghost").2, false) ∧
      readContract 0 (Except.ok "d") (Except.ok "r") (Except.ok "v") []
          "ghost" =
        (notConnectedResponse, (getSession 0 [] "ghost").2, false) ∧
      estimateGas 0 (Except.ok "d") (Except.ok (Except.ok "21000")) []
          "ghost" =
        (notConnectedResponse, (getSession 0 [] "ghost").2, false)) :=
  ⟨rfl, C3_not_connected 0 [] "ghost" (Except.ok "h") (Except.ok "s")
    (Except.ok "s") (Except.ok "d") (Except.ok "h") (Except.ok "v")
    (Except.ok (Except.ok "21000")) rfl⟩

/-- C9: the object returned by `createProgressTracker(key, duration)`
computes, at any instant `now` at or after its creation time and for any
positive duration: `getProgress` = `min(100, elapsed/duration*100)` rounded
to the nearest integer (hence `0` immediately on creation and `100` once
the duration has elapsed), `getRemaining` = `max(0, deadline - now)`, and
`isExpired` exactly when `now ≥ deadline` (`deadline = startTime +
duration`). -/
theorem C9_progress_tracker (startTime timeout now : ℤ)
    (hdur : 0 < timeout) (hnow : startTime ≤ now) :
    ppGetProgress startTime timeout now =
      round (min (100 : ℚ)
        (((now - startTime : ℤ) : ℚ) / ((timeout : ℤ) : ℚ) * 100)) ∧
    ppGetProgress startTime timeout startTime = 0 ∧
    (startTime + timeout ≤ now → ppGetProgress startTime timeout now = 100) ∧
    ppGetRemaining startTime timeout now =
      max 0 (startTime + timeout - now) ∧
    (ppIsExpired startTime timeout now = true ↔ startTime + timeout ≤ now) := by
  refine ⟨?_, ?_, ?_, ?_, ?_⟩
  · unfold ppGetProgress
    rw [min_comm]
  · unfold ppGetProgress
    have hz : ((startTime - startTime : ℤ) : ℚ) = 0 := by
      push_cast
      ring
    rw [hz]
    have h100 : (0 : ℚ) / ((timeout : ℤ) : ℚ) * 100 = 0 := by
      rw [zero_div, zero_mul]
    rw [h100]
    have hmin : min (0 : ℚ) 100 = 0 := by norm_num
    rw [hmin]
    exact round_zero
  · intro hel
    unfold ppGetProgress
    have ht : (0 : ℚ) < ((timeout : ℤ) : ℚ) := by exact_mod_cast hdur
    have hge : (100 : ℚ) ≤ ((now - startTime : ℤ) : ℚ) / ((timeout : ℤ) : ℚ) * 100 := by
      have h1 : (1 : ℚ) ≤ ((now - startTime : ℤ) : ℚ) / ((timeout : ℤ) : ℚ) := by
        rw [le_div_iff₀ ht]
        have : ((timeout : ℤ) : ℚ) ≤ ((now - startTime : ℤ) : ℚ) := by
          exact_mod_cast (by omega : timeout ≤ now - startTime)
        simpa using this
      nlinarith
    rw [min_eq_right hge]
    norm_num
  · unfold ppGetRemaining
    rw [max_comm]
  · unfold ppIsExpired
    simp

/-- Witness for C9 at the default connection duration, evaluated exactly at
the deadline. -/
theorem C9_witness :
    (0 : ℤ) < 30000 ∧ (0 : ℤ) ≤ 30000 ∧
    (ppGetProgress 0 30000 30000 =
        round (min (100 : ℚ)
          (((30000 - 0 : ℤ) : ℚ) / ((30000 : ℤ) : ℚ) * 100)) ∧
      ppGetProgress 0 30000 0 = 0 ∧
      ((0 : ℤ) + 30000 ≤ 30000 → ppGetProgress 0 30000 30000 = 100) ∧
      ppGetRemaining 0 30000 30000 = max 0 ((0 : ℤ) + 30000 - 30000) ∧
      (ppIsExpired 0 30000 30000 = true ↔ (0 : ℤ) + 30000 ≤ 30000)) :=
  ⟨by norm_num, by norm_num,
    C9_progress_tracker 0 30000 30000 (by norm_num) (by norm_num)⟩

/-- Counterexample to C2: a tracked session with a topic whose remote
`wcClient.disconnect` call throws is NOT removed from the registry or the
database — `disconnect` returns `false` and both maps are unchanged,
contradicting "remove the session ... regardless of whether the remote
disconnect call itself succeeds or throws". -/
theorem C2_counterexample :
    disconnect true [("u1", staleDemoSession)] [("u1", staleDemoSession)]
        "u1" =
      (false, [("u1", staleDemoSession)], [("u1", staleDemoSession)]) ∧
    mapGet (disconnect true [("u1", staleDemoSession)]
        [("u1", staleDemoSession)] "u1").2.1 "u1" = some staleDemoSession := by
  constructor
  · rfl
  · rfl

/-- C2 as amended: `disconnect(userId)` removes the session from the
registry and the database only when the protocol-level disconnect is not
reached (no truthy `topic`) or does not throw; when the remote call throws,
the `catch` returns `false` and the session stays tracked in both maps. -/
theorem C2_amended (remoteThrows : Bool) (reg db : Registry) (uid : String)
    (s : UserSession) (hget : mapGet reg uid = some s) :
    (topicTruthy s.topic = true → remoteThrows = true →
      disconnect remoteThrows reg db uid = (false, reg, db)) ∧
    (topicTruthy s.topic = false ∨ remoteThrows = false →
      disconnect remoteThrows reg db uid =
        (true, mapDelete reg uid, mapDelete db uid) ∧
      mapGet (mapDelete reg uid) uid = none ∧
      mapGet (mapDelete db uid) uid = none) := by
  constructor
  · intro hT hR
    unfold disconnect
    rw [hget]
    simp only [hT, hR, Bool.and_self, if_true]
  · intro hOr
    unfold disconnect
    rw [hget]
    have hcond : (topicTruthy s.topic && remoteThrows) = false := by
      rcases hOr with h | h
      · rw [h, Bool.false_and]
      · rw [h, Bool.and_false]
    simp only [hcond, Bool.false_eq_true, if_false]
    exact ⟨trivial, mapGet_mapDelete reg uid, mapGet_mapDelete db uid⟩

/-- Witness for C2 (amended) at a concrete session whose remote disconnect
succeeds. -/
theorem C2_witness :
    mapGet [("u1", staleDemoSession)] "u1" = some staleDemoSession ∧
    ((topicTruthy staleDemoSession.topic = true → false = true →
        disconnect false [("u1", staleDemoSession)]
          [("u1", staleDemoSession)] "u1" =
          (false, [("u1", staleDemoSession)], [("u1", staleDemoSession)])) ∧
      (topicTruthy staleDemoSession.topic = false ∨ false = false →
        disconnect false [("u1", staleDemoSession)]
          [("u1", staleDemoSession)] "u1" =
          (true, mapDelete [("u1", staleDemoSession)] "u1",
            mapDelete [("u1", staleDemoSession)] "u1") ∧
        mapGet (mapDelete [("u1", staleDemoSession)] "u1") "u1" = none ∧
        mapGet (mapDelete [("u1", staleDemoSession)] "u1") "u1" = none)) :=
  ⟨rfl, C2_amended false [("u1", staleDemoSession)] [("u1", staleDemoSession)]
    "u1" staleDemoSession rfl⟩

/-- Counterexample to C4: the distinguished timeout failure does NOT carry
the operation kind.  Two `track` calls with the same key but different
kinds (`connection` vs `signing`, both configured at 30000 ms by default)
reject with identical `TimeoutError` values, so no function of the failure
can recover the kind. -/
theorem C4_counterexample :
    createTimeoutOutcome DEFAULT_TIMEOUTS "op" none (Except.ok "r")
        TimeoutKind.connection =
      createTimeoutOutcome DEFAULT_TIMEOUTS "op" none (Except.ok "r")
        TimeoutKind.signing ∧
    TimeoutKind.connection ≠ TimeoutKind.signing ∧
    ¬ ∃ f : TimeoutError → TimeoutKind, ∀ ty : TimeoutKind,
        f (timeoutErrorOf DEFAULT_TIMEOUTS "op" ty) = ty := by
  refine ⟨rfl, by decide, ?_⟩
  rintro ⟨f, hf⟩
  have h1 := hf TimeoutKind.connection
  have h2 := hf TimeoutKind.signing
  have he : timeoutErrorOf DEFAULT_TIMEOUTS "op" TimeoutKind.connection =
      timeoutErrorOf DEFAULT_TIMEOUTS "op" TimeoutKind.signing := rfl
  rw [he] at h1
  exact absurd (h1.symm.trans h2) (by decide)

/-- C4 as amended: when the deadline is reached before the tracked
operation settles, `track` rejects with a `TimeoutError` carrying the key
(`operation` field and message) and the configured duration for the kind
(`timeout` field and message) — but not the kind itself — and the timer
stored under the key is cleared from the timer table once the race
settles. -/
theorem C4_amended (cfg : TimeoutConfig) (key : String) (kind : TimeoutKind)
    (timers : TimerTable) (handle : Nat) (value : Except String String)
    (settleAt : Option Nat)
    (hlate : ∀ t, settleAt = some t → getTimeout cfg kind ≤ t) :
    createTimeoutOutcome cfg key settleAt value kind =
      Except.error
        { message := key ++ " timed out after " ++
            toString (getTimeout cfg kind) ++ "ms"
          operation := key
          timeout := getTimeout cfg kind } ∧
    tGet (timersAfterTrack timers key handle) key = none := by
  constructor
  · cases settleAt with
    | none => rfl
    | some t =>
      have ht := hlate t rfl
      simp only [createTimeoutOutcome]
      rw [if_neg (by omega)]
      rfl
  · exact tGet_tDelete (tSet timers key handle) key

/-- Witness for C4 (amended): an operation that never settles against the
default connection deadline. -/
theorem C4_witness :
    (∀ t : Nat, (none : Option Nat) = some t →
      getTimeout DEFAULT_TIMEOUTS TimeoutKind.connection ≤ t) ∧
    (createTimeoutOutcome DEFAULT_TIMEOUTS "op" none (Except.ok "r")
        TimeoutKind.connection =
      Except.error
        { message := "op" ++ " timed out after " ++
            toString (getTimeout DEFAULT_TIMEOUTS TimeoutKind.connection) ++
            "ms"
          operation := "op"
          timeout := getTimeout DEFAULT_TIMEOUTS TimeoutKind.connection } ∧
    tGet (timersAfterTrack [("other", 3)] "op" 5) "op" = none) :=
  ⟨(fun t ht => nomatch ht),
    C4_amended DEFAULT_TIMEOUTS "op" TimeoutKind.connection [("other", 3)] 5
      (Except.ok "r") none (fun t ht => nomatch ht)⟩

/-- An approved session with a given user id and last-activity time, for
the sweep scenarios. -/
def sweepSession (uid : String) (last : Nat) : UserSession :=
  { userId := uid, wcClient := 0, topic := some "t", isActive := true,
    createdAt := 0, updatedAt := 0, lastActivity := last }

/-- A sweep instant: 200 hours in milliseconds. -/
def sweepNow : Nat := 720000000

/-- Three stored sessions with `lastActivity` at `now - 1ms`, `now - 25h`,
`now - 30h`. -/
def sweepSessions : Registry :=
  [("fresh", sweepSession "fresh" 719999999),
   ("old25", sweepSession "old25" 630000000),
   ("old30", sweepSession "old30" 612000000)]

/-- A `MemoryStorage` item holding a session whose `lastActivity` is far in
the past but which was stored without a TTL (`setItem` with no `ttl`
argument leaves `expiresAt` unset). -/
def sweepStaleItem : MemItem UserSession :=
  { value := sweepSession "u1" 0, createdAt := 0, updatedAt := 0,
    expiresAt := none }

/-- Counterexample to C5: the only count-returning sweep,
`MemoryStorage.cleanup`, selects by the per-item `expiresAt` TTL, not by
`lastActivity`.  On a record whose `lastActivity` precedes `now - 24h` by
far (but which has no TTL) it removes nothing and returns `0`, where the
claim requires the record to be deleted and the count to be `1`.
(The `lastActivity`-based sweep, `SimpleDatabase.cleanupExpiredSessions`,
returns no count at all.) -/
theorem C5_counterexample :
    sweepNow - sweepStaleItem.value.lastActivity > maxSessionAge ∧
    memCleanup sweepNow [("u1", sweepStaleItem)] =
      ([("u1", sweepStaleItem)], 0) :=
  ⟨by decide, rfl⟩

/-- C5 as amended: the `lastActivity`-based sweep
(`SimpleDatabase.cleanupExpiredSessions`, fixed 24-hour cutoff) keeps
exactly the records whose `lastActivity` age is at most 24 hours — in the
three-session scenario it removes exactly the two records older than 24h,
shrinking the store from 3 records to 1, and a record exactly at the
cutoff is untouched — but the function returns no removal count (its
TypeScript return type is `Promise<void>`); the count-returning sweep is
the TTL-based `MemoryStorage.cleanup`. -/
theorem C5_amended (now : Nat) (sessions : Registry) :
    (∀ p, p ∈ cleanupExpiredSessions now sessions ↔
      p ∈ sessions ∧ now - p.2.lastActivity ≤ maxSessionAge) ∧
    cleanupExpiredSessions sweepNow sweepSessions =
      [("fresh", sweepSession "fresh" 719999999)] ∧
    sweepSessions.length -
      (cleanupExpiredSessions sweepNow sweepSessions).length = 2 ∧
    cleanupExpiredSessions maxSessionAge [("edge", sweepSession "edge" 0)] =
      [("edge", sweepSession "edge" 0)] := by
  refine ⟨?_, by decide, by decide, by decide⟩
  intro p
  induction sessions with
  | nil => simp [cleanupExpiredSessions]
  | cons q rest ih =>
    rw [cleanupExpiredSessions]
    by_cases hq : now - q.2.lastActivity > maxSessionAge
    · rw [if_pos hq, ih]
      constructor
      · rintro ⟨hmem, hle⟩
        exact ⟨List.mem_cons_of_mem _ hmem, hle⟩
      · rintro ⟨hmem, hle⟩
        rcases List.mem_cons.mp hmem with h | h
        · exfalso
          rw [h] at hle
          omega
        · exact ⟨h, hle⟩
    · rw [if_neg hq]
      constructor
      · intro hmem
        rcases List.mem_cons.mp hmem with h | h
        · refine ⟨h ▸ List.mem_cons_self _ _, ?_⟩
          rw [h]
          omega
        · obtain ⟨hmem2, hle⟩ := ih.mp h
          exact ⟨List.mem_cons_of_mem _ hmem2, hle⟩
      · rintro ⟨hmem, hle⟩
        rcases List.mem_cons.mp hmem with h | h
        · exact h ▸ List.mem_cons_self _ _
        · exact List.mem_cons_of_mem _ (ih.mpr ⟨h, hle⟩)

/-- Witness for C5 (amended) at the three-session sweep scenario. -/
theorem C5_witness :
    (∀ p, p ∈ cleanupExpiredSessions sweepNow sweepSessions ↔
      p ∈ sweepSessions ∧
        sweepNow - p.2.lastActivity ≤ maxSessionAge) ∧
    cleanupExpiredSessions sweepNow sweepSessions =
      [("fresh", sweepSession "fresh" 719999999)] ∧
    sweepSessions.length -
      (cleanupExpiredSessions sweepNow sweepSessions).length = 2 ∧
    cleanupExpiredSessions maxSessionAge [("edge", sweepSession "edge" 0)] =
      [("edge", sweepSession "edge" 0)] :=
  C5_amended sweepNow sweepSessions

/-- Counterexample to C6: a successful `sendTransaction` through a valid
session leaves the stored session byte-for-byte unchanged — its
`lastActivity` stays at 0 instead of being advanced to the operation time
1000 — contradicting "a successful completion updates that session's
lastActivity timestamp". -/
theorem C6_counterexample :
    (sendTransaction 1000 (Except.ok "0xhash")
        [("u1", staleDemoSession)] "u1").1.success = true ∧
    mapGet (sendTransaction 1000 (Except.ok "0xhash")
        [("u1", staleDemoSession)] "u1").2.1 "u1" = some staleDemoSession ∧
    staleDemoSession.lastActivity = 0 ∧ (1000 : Nat) ≠ 0 := by
  refine ⟨rfl, rfl, rfl, by decide⟩

/-- C6 as amended: none of the six session-routed operations modifies the
stored session at all — on any completion, successful or not, the registry
still maps the user to the exact pre-operation session record, so
`lastActivity` (like every other field) is unchanged; `lastActivity` is
only ever advanced by the `session_connect` and `session_update` protocol
event handlers. -/
theorem C6_no_update (now : Nat) (reg : Registry) (uid : String)
    (s : UserSession) (tx msg typed enc tr dec : Except String String)
    (gasOutcome : Except TimeoutError (Except String String))
    (hget : mapGet reg uid = some s)
    (hvalid : (validateSession now s).1 = true) :
    mapGet (sendTransaction now tx reg uid).2.1 uid = some s ∧
    mapGet (signMessage now msg reg uid).2.1 uid = some s ∧
    mapGet (signTypedData now typed reg uid).2.1 uid = some s ∧
    mapGet (callContract now enc tr reg uid).2.1 uid = some s ∧
    mapGet (readContract now enc tr dec reg uid).2.1 uid = some s ∧
    mapGet (estimateGas now enc gasOutcome reg uid).2.1 uid = some s := by
  have hgs := getSession_valid hget hvalid
  have hT : topicTruthy s.topic = true := (validateSession_fst_true hvalid).2.2.1
  have hM := mapGet_mapSet_self reg uid s
  refine ⟨?_, ?_, ?_, ?_, ?_, ?_⟩
  · unfold sendTransaction
    rw [hgs]
    cases tx <;> simp [hT, hM]
  · unfold signMessage
    rw [hgs]
    cases msg <;> simp [hT, hM]
  · unfold signTypedData
    rw [hgs]
    cases typed <;> simp [hT, hM]
  · unfold callContract
    rw [hgs]
    cases enc <;> cases tr <;> simp [hT, hM]
  · unfold readContract
    rw [hgs]
    cases enc <;> cases tr <;> cases dec <;> simp [hT, hM]
  · unfold estimateGas
    rw [hgs]
    cases enc with
    | error e => simp [hT, hM]
    | ok d =>
      cases gasOutcome with
      | error te => simp [hT, hM]
      | ok inner => cases inner <;> simp [hT, hM]

/-- Witness for C6 (amended) at a concrete valid session. -/
theorem C6_witness :
    mapGet [("u1", staleDemoSession)] "u1" = some staleDemoSession ∧
    (validateSession 1000 staleDemoSession).1 = true ∧
    (mapGet (sendTransaction 1000 (Except.ok "h")
        [("u1", staleDemoSession)] "u1").2.1 "u1" = some staleDemoSession ∧
    mapGet (signMessage 1000 (Except.ok "s")
        [("u1", staleDemoSession)] "u1").2.1 "u1" = some staleDemoSession ∧
    mapGet (signTypedData 1000 (Except.ok "s")
        [("u1", staleDemoSession)] "u1").2.1 "u1" = some staleDemoSession ∧
    mapGet (callContract 1000 (Except.ok "d") (Except.ok "h")
        [("u1", staleDemoSession)] "u1").2.1 "u1" = some staleDemoSession ∧
    mapGet (readContract 1000 (Except.ok "d") (Except.ok "h") (Except.ok "v")
        [("u1", staleDemoSession)] "u1").2.1 "u1" = some staleDemoSession ∧
    mapGet (estimateGas 1000 (Except.ok "d") (Except.ok (Except.ok "21000"))
        [("u1", staleDemoSession)] "u1").2.1 "u1" = some staleDemoSession) :=
  ⟨rfl, by decide,
    C6_no_update 1000 [("u1", staleDemoSession)] "u1" staleDemoSession
      (Except.ok "h") (Except.ok "s") (Except.ok "s") (Except.ok "d")
      (Except.ok "h") (Except.ok "v") (Except.ok (Except.ok "21000")) rfl
      (by decide)⟩

/-- The first of two back-to-back `connect` calls for user `"u1"` on an
empty registry, before any approval event. -/
def c1First : ConnectionResponse × Registry × Registry × Bool :=
  connect DEFAULT_TIMEOUTS 0 1 (Except.ok "wc:first@2") (fun u => u)
    [] [] "u1"

/-- The second back-to-back `connect` call, running against the state left
by the first while the first handshake is still pending (no approval has
arrived, so the stored session still has `isActive = false`). -/
def c1Second : ConnectionResponse × Registry × Registry × Bool :=
  connect DEFAULT_TIMEOUTS 0 2 (Except.ok "wc:second@2") (fun u => u)
    c1First.2.1 c1First.2.2.1 "u1"

/-- Counterexample to C1: two back-to-back `connect` calls before any
approval event do NOT return the same pending session — the short-circuit
requires `validateSession`, which rejects every pending session
(`isActive = false`), so the second call opens a second handshake
(fourth component `true`), replaces the registry entry with a fresh
session holding the new client, and returns a different topic. -/
theorem C1_counterexample :
    c1First.2.2.2 = true ∧
    c1Second.2.2.2 = true ∧
    (mapGet c1Second.2.1 "u1").map UserSession.wcClient = some 2 ∧
    c1First.1.topic ≠ c1Second.1.topic :=
  ⟨rfl, rfl, rfl, by decide⟩

/-- `connectFresh` keeps at most one registry entry per user id. -/
theorem countKey_connectFresh_le (cfg : TimeoutConfig) (now newClient : Nat)
    (handshake : Except String String) (qr : String → String)
    (reg db : Registry) (uid : String) (h : countKey reg uid ≤ 1) :
    countKey (connectFresh cfg now newClient handshake qr reg db uid).2.1
      uid ≤ 1 := by
  cases handshake with
  | error e => exact h
  | ok uri =>
    simp only [connectFresh]
    by_cases ht : trimEmpty uri = true
    · rw [if_pos ht]
      exact h
    · rw [if_neg ht]
      exact countKey_mapSet_le reg uid _ h

/-- C1 as amended: `connect` is idempotent only for a session that passes
`validateSession` (approved, topic present, within the 24h window) — then
it returns the existing session's topic, opens no handshake, and leaves
registry and database untouched.  For a still-pending session the second
call opens a new handshake and replaces the entry (see the counterexample);
in every case the registry keeps at most one entry for the user id. -/
theorem C1_idempotent_when_valid (cfg : TimeoutConfig) (now newClient : Nat)
    (handshake : Except String String) (qr : String → String)
    (reg db : Registry) (uid : String) (hcount : countKey reg uid ≤ 1) :
    countKey (connect cfg now newClient handshake qr reg db uid).2.1 uid
      ≤ 1 ∧
    (∀ s, mapGet reg uid = some s → (validateSession now s).1 = true →
      connect cfg now newClient handshake qr reg db uid =
        ({ success := true, uri := "", topic := s.topic.getD "",
           timeout := getTimeout cfg TimeoutKind.connection },
         reg, db, false)) := by
  constructor
  · unfold connect
    cases hm : mapGet reg uid with
    | none =>
      exact countKey_connectFresh_le cfg now newClient handshake qr reg db
        uid hcount
    | some s =>
      by_cases hv : (validateSession now s).1 = true
      · simp only [hv, if_true]
        exact hcount
      · simp only [Bool.not_eq_true] at hv
        simp only [hv, Bool.false_eq_true, if_false]
        exact countKey_connectFresh_le cfg now newClient handshake qr
          (mapSet reg uid (validateSession now s).2) db uid
          (countKey_mapSet_le reg uid _ hcount)
  · intro s hget hvalid
    have hsnd := (validateSession_fst_true hvalid).1
    unfold connect
    rw [hget]
    simp [hvalid, hsnd]

/-- Witness for C1 (amended) at a concrete valid session. -/
theorem C1_witness :
    countKey [("u1", staleDemoSession)] "u1" ≤ 1 ∧
    (countKey (connect DEFAULT_TIMEOUTS 0 9 (Except.ok "wc:x") (fun u => u)
        [("u1", staleDemoSession)] [] "u1").2.1 "u1" ≤ 1 ∧
    (∀ s, mapGet [("u1", staleDemoSession)] "u1" = some s →
      (validateSession 0 s).1 = true →
      connect DEFAULT_TIMEOUTS 0 9 (Except.ok "wc:x") (fun u => u)
          [("u1", staleDemoSession)] [] "u1" =
        ({ success := true, uri := "", topic := s.topic.getD "",
           timeout := getTimeout DEFAULT_TIMEOUTS TimeoutKind.connection },
         [("u1", staleDemoSession)], [], false))) :=
  ⟨by decide,
    C1_idempotent_when_valid DEFAULT_TIMEOUTS 0 9 (Except.ok "wc:x")
      (fun u => u) [("u1", staleDemoSession)] [] "u1" (by decide)⟩

/-- The registry invariant of C8: every stored session with
`isActive = true` has a truthy (present and non-empty) `topic`. -/
def RegInv (reg : Registry) : Prop :=
  ∀ p ∈ reg, p.2.isActive = true → topicTruthy p.2.topic = true

theorem RegInv_mapSet {reg : Registry} {k : String} {v : UserSession}
    (hInv : RegInv reg)
    (hv : v.isActive = true → topicTruthy v.topic = true) :
    RegInv (mapSet reg k v) := by
  intro p hp hA
  rcases mem_mapSet hp with h | h
  · rw [h] at hA ⊢
    exact hv hA
  · exact hInv p h hA

theorem RegInv_connectFresh (cfg : TimeoutConfig) (now newClient : Nat)
    (handshake : Except String String) (qr : String → String)
    {reg : Registry} (db : Registry) (uid : String) (hInv : RegInv reg) :
    RegInv (connectFresh cfg now newClient handshake qr reg db uid).2.1 := by
  cases handshake with
  | error e => exact hInv
  | ok uri =>
    simp only [connectFresh]
    by_cases ht : trimEmpty uri = true
    · rw [if_pos ht]
      exact hInv
    · rw [if_neg ht]
      exact RegInv_mapSet hInv (fun hA => absurd hA Bool.false_ne_true)

theorem RegInv_connect (cfg : TimeoutConfig) (now newClient : Nat)
    (handshake : Except String String) (qr : String → String)
    {reg : Registry} (db : Registry) (uid : String) (hInv : RegInv reg) :
    RegInv (connect cfg now newClient handshake qr reg db uid).2.1 := by
  unfold connect
  cases hm : mapGet reg uid with
  | none => exact RegInv_connectFresh cfg now newClient handshake qr db uid hInv
  | some s =>
    by_cases hv : (validateSession now s).1 = true
    · simp only [hv, if_true]
      exact hInv
    · simp only [Bool.not_eq_true] at hv
      simp only [hv, Bool.false_eq_true, if_false]
      refine RegInv_connectFresh cfg now newClient handshake qr db uid ?_
      refine RegInv_mapSet hInv ?_
      rcases validateSession_snd_cases now s with h | h
      · rw [h]
        exact hInv (uid, s) (mapGet_mem hm)
      · rw [h]
        exact fun hA => absurd hA Bool.false_ne_true

theorem RegInv_sessionConnectHandler (now clientId : Nat)
    (eventTopic payload : String) (accounts : List String) {reg : Registry}
    (hInv : RegInv reg) (hTopic : eventTopic ≠ "") :
    RegInv (sessionConnectHandler now clientId eventTopic payload accounts
      reg) := by
  unfold sessionConnectHandler
  cases hf : reg.find? (fun p => p.2.wcClient == clientId) with
  | none => exact hInv
  | some p =>
    refine RegInv_mapSet hInv ?_
    intro _
    simp [topicTruthy, hTopic]

theorem RegInv_restoreSessions (now : Nat)
    (freshClient : String → Option Nat) (db : Registry) {reg : Registry}
    (hInv : RegInv reg) :
    RegInv (restoreSessions now freshClient db reg) := by
  induction db generalizing reg with
  | nil => exact hInv
  | cons p rest ih =>
    rw [restoreSessions]
    by_cases hv : (validateSession now p.2).1 = true
    · simp only [hv, if_true]
      cases hc : freshClient p.2.userId with
      | none => exact hInv
      | some c =>
        refine ih ?_
        refine RegInv_mapSet hInv ?_
        intro _
        have hsnd := (validateSession_fst_true hv).1
        have hT := (validateSession_fst_true hv).2.2.1
        rw [hsnd]
        exact hT
    · simp only [Bool.not_eq_true] at hv
      simp only [hv, Bool.false_eq_true, if_false]
      exact ih hInv

/-- C8: the invariant "every registry session with `isActive = true` has a
non-empty topic" is preserved by `connect` (both the short-circuit and the
fresh-handshake path, whose new session has `isActive = false`), by the
`session_connect` approval handler (which assigns the event's topic before
setting `isActive := true`; the protocol's topics are non-empty, stated as
the hypothesis on `eventTopic`), and by startup restoration (which only
re-registers sessions passing `validateSession`, hence with truthy
topics). -/
theorem C8_active_has_topic (cfg : TimeoutConfig)
    (now newClient clientId : Nat) (handshake : Except String String)
    (qr : String → String) (eventTopic payload : String)
    (accounts : List String) (freshClient : String → Option Nat)
    (reg db store : Registry) (uid : String)
    (hInv : RegInv reg) (hTopic : eventTopic ≠ "") :
    RegInv (connect cfg now newClient handshake qr reg db uid).2.1 ∧
    RegInv (sessionConnectHandler now clientId eventTopic payload accounts
      reg) ∧
    RegInv (restoreSessions now freshClient store reg) :=
  ⟨RegInv_connect cfg now newClient handshake qr db uid hInv,
    RegInv_sessionConnectHandler now clientId eventTopic payload accounts
      hInv hTopic,
    RegInv_restoreSessions now freshClient store hInv⟩

/-- Witness for C8 at a concrete registry holding one approved session
(whose client id 0 is matched by the approval event). -/
theorem C8_witness :
    RegInv [("u1", staleDemoSession)] ∧ ("topic1" ≠ "") ∧
    (RegInv (connect DEFAULT_TIMEOUTS 0 5 (Except.ok "wc:x") (fun u => u)
        [("u1", staleDemoSession)] [] "u1").2.1 ∧
    RegInv (sessionConnectHandler 0 0 "topic1" "payload"
      ["eip155:1:0xabc"] [("u1", staleDemoSession)]) ∧
    RegInv (restoreSessions 0 (fun _ => some 7) [("u1", staleDemoSession)]
      [("u1", staleDemoSession)])) :=
  ⟨(by intro p hp hA; rw [List.mem_singleton] at hp; rw [hp]; decide),
    by decide,
    C8_active_has_topic DEFAULT_TIMEOUTS 0 5 0 (Except.ok "wc:x")
      (fun u => u) "topic1" "payload" ["eip155:1:0xabc"] (fun _ => some 7)
      [("u1", staleDemoSession)] [] [("u1", staleDemoSession)] "u1"
      (by intro p hp hA; rw [List.mem_singleton] at hp; rw [hp]; decide)
      (by decide)⟩

/-- Counterexample to C7: `destroy` never calls
`timeoutManager.clearAllTimers()` — with one tracked timeout outstanding,
the timer table after `destroy` still holds it, contradicting "cancel
every tracked timeout ... so that no tracked timers ... remain". -/
theorem C7_counterexample :
    (destroy (fun _ => false)
        { reg := [], db := [], timers := [("gas-estimation-u1", 7)],
          cleanupInterval := some 1, dbConnected := true }).timers =
      [("gas-estimation-u1", 7)] ∧
    (destroy (fun _ => false)
        { reg := [], db := [], timers := [("gas-estimation-u1", 7)],
          cleanupInterval := some 1, dbConnected := true }).timers ≠ [] :=
  ⟨rfl, by decide⟩

/-- Keys of the registry are pairwise distinct (always true of a state
built through the `Map` operations). -/
def NodupKeys (reg : Registry) : Prop :=
  List.Pairwise (fun p q => p.1 ≠ q.1) reg

/-- Membership test used to characterize the `destroy` loop. -/
def keyIn (uids : List String) (k : String) : Bool :=
  match uids with
  | [] => false
  | u :: rest => if u = k then true else keyIn rest k

/-- The sessions that survive the `destroy` disconnect loop over `uids`:
those not visited, and those whose remote disconnect is reached (truthy
topic) and throws. -/
def destroyKeep (throws : String → Bool) (uids : List String)
    (p : String × UserSession) : Bool :=
  !(keyIn uids p.1) || (topicTruthy p.2.topic && throws p.1)

theorem keyIn_of_mem {reg : Registry} {p : String × UserSession}
    (hp : p ∈ reg) : keyIn (reg.map Prod.fst) p.1 = true := by
  induction reg with
  | nil => simp at hp
  | cons q rest ih =>
    rw [List.map_cons, keyIn]
    by_cases hq : q.1 = p.1
    · rw [if_pos hq]
    · rw [if_neg hq]
      rcases List.mem_cons.mp hp with h | h
      · exact absurd (by rw [h]) hq
      · exact ih h

theorem mapGet_none_forall {reg : Registry} {k : String}
    (h : mapGet reg k = none) : ∀ p ∈ reg, p.1 ≠ k := by
  induction reg with
  | nil =>
    intro p hp
    simp at hp
  | cons q rest ih =>
    rw [mapGet] at h
    by_cases hk : q.1 = k
    · rw [if_pos hk] at h
      exact absurd h (by simp)
    · rw [if_neg hk] at h
      intro p hp
      rcases List.mem_cons.mp hp with hc | hc
      · rw [hc]
        exact hk
      · exact ih h p hc

theorem NodupKeys_unique {reg : Registry} {k : String} {s : UserSession}
    (h : NodupKeys reg) (hget : mapGet reg k = some s) :
    ∀ p ∈ reg, p.1 = k → p.2 = s := by
  induction reg with
  | nil =>
    intro p hp
    simp at hp
  | cons q rest ih =>
    rw [mapGet] at hget
    have hpair := List.pairwise_cons.mp h
    intro p hp hpk
    by_cases hk : q.1 = k
    · rw [if_pos hk] at hget
      have hqs : q.2 = s := Option.some.inj hget
      rcases List.mem_cons.mp hp with hc | hc
      · rw [hc]
        exact hqs
      · exact absurd (by rw [hk, hpk] : q.1 = p.1) (hpair.1 p hc)
    · rw [if_neg hk] at hget
      rcases List.mem_cons.mp hp with hc | hc
      · exact absurd (show q.1 = k by rw [← hc]; exact hpk) hk
      · exact ih hpair.2 hget p hc hpk

theorem mem_of_mem_mapDelete {reg : Registry} {k : String}
    {p : String × UserSession} (h : p ∈ mapDelete reg k) : p ∈ reg := by
  induction reg with
  | nil => exact h
  | cons q rest ih =>
    rw [mapDelete] at h
    by_cases hk : q.1 = k
    · rw [if_pos hk] at h
      exact List.mem_cons_of_mem _ (ih h)
    · rw [if_neg hk] at h
      rcases List.mem_cons.mp h with hc | hc
      · exact hc ▸ List.mem_cons_self _ _
      · exact List.mem_cons_of_mem _ (ih hc)

theorem NodupKeys_mapDelete {reg : Registry} (k : String)
    (h : NodupKeys reg) : NodupKeys (mapDelete reg k) := by
  induction reg with
  | nil => exact h
  | cons q rest ih =>
    have hpair := List.pairwise_cons.mp h
    rw [mapDelete]
    by_cases hk : q.1 = k
    · rw [if_pos hk]
      exact ih hpair.2
    · rw [if_neg hk]
      exact List.pairwise_cons.mpr
        ⟨fun a ha => hpair.1 a (mem_of_mem_mapDelete ha), ih hpair.2⟩

theorem mapDelete_eq_filter (reg : Registry) (k : String) :
    mapDelete reg k = reg.filter (fun p => decide (p.1 ≠ k)) := by
  induction reg with
  | nil => rfl
  | cons q rest ih =>
    rw [mapDelete, List.filter_cons]
    by_cases hk : q.1 = k
    · rw [if_pos hk]
      simp [hk, ih]
    · rw [if_neg hk]
      simp [hk, ih]

theorem destroyLoop_fst (throws : String → Bool) (uids : List String)
    (reg db : Registry) (h : NodupKeys reg) :
    (destroyLoop throws uids reg db).1 =
      reg.filter (destroyKeep throws uids) := by
  induction uids generalizing reg db with
  | nil =>
    have hall : destroyKeep throws [] = fun _ => true := by
      funext p
      simp [destroyKeep, keyIn]
    rw [destroyLoop, hall, List.filter_true]
  | cons u rest ih =>
    rw [destroyLoop]
    unfold disconnect
    cases hm : mapGet reg u with
    | none =>
      show (destroyLoop throws rest reg db).1 = _
      rw [ih reg db h]
      apply List.filter_congr
      intro p hp
      have hne : p.1 ≠ u := mapGet_none_forall hm p hp
      simp [destroyKeep, keyIn, Ne.symm hne]
    | some s =>
      show (destroyLoop throws rest
          (if (topicTruthy s.topic && throws u) = true then (false, reg, db)
            else (true, mapDelete reg u, mapDelete db u)).2.1
          (if (topicTruthy s.topic && throws u) = true then (false, reg, db)
            else (true, mapDelete reg u, mapDelete db u)).2.2).1 =
        List.filter (destroyKeep throws (u :: rest)) reg
      by_cases hc : (topicTruthy s.topic && throws u) = true
      · rw [if_pos hc]
        show (destroyLoop throws rest reg db).1 = _
        rw [ih reg db h]
        apply List.filter_congr
        intro p hp
        by_cases hpu : p.1 = u
        · have hps : p.2 = s := NodupKeys_unique h hm p hp hpu
          simp [destroyKeep, keyIn, hpu, hps, hc]
        · simp [destroyKeep, keyIn, Ne.symm hpu]
      · rw [if_neg hc]
        show (destroyLoop throws rest (mapDelete reg u)
          (mapDelete db u)).1 = _
        rw [ih (mapDelete reg u) (mapDelete db u) (NodupKeys_mapDelete u h),
          mapDelete_eq_filter, List.filter_filter]
        apply List.filter_congr
        intro p hp
        have hc2 : (topicTruthy s.topic && throws u) = false := by
          cases hb : (topicTruthy s.topic && throws u)
          · rfl
          · exact absurd hb hc
        by_cases hpu : p.1 = u
        · have hps : p.2 = s := NodupKeys_unique h hm p hp hpu
          simp [destroyKeep, keyIn, hpu, hps, hc2]
        · simp [destroyKeep, keyIn, hpu, Ne.symm hpu]

/-- C7 as amended: `destroy` clears the periodic cleanup interval and
disconnects the database, and it walks every registered user with
`disconnect` in registry order, continuing past individual failures (no
failure aborts the loop) — but it does not cancel the `TimeoutManager`'s
tracked timeouts (the timer table is untouched), and a session whose
remote disconnect is reached and throws survives in the registry: exactly
the sessions with a truthy topic whose remote disconnect throws remain. -/
theorem C7_destroy_spec (throws : String → Bool) (st : SDKState)
    (h : NodupKeys st.reg) :
    (destroy throws st).timers = st.timers ∧
    (destroy throws st).cleanupInterval = none ∧
    (destroy throws st).dbConnected = false ∧
    (destroy throws st).reg =
      st.reg.filter (fun p => topicTruthy p.2.topic && throws p.1) := by
  refine ⟨rfl, rfl, rfl, ?_⟩
  show (destroyLoop throws (st.reg.map Prod.fst) st.reg st.db).1 = _
  rw [destroyLoop_fst throws (st.reg.map Prod.fst) st.reg st.db h]
  apply List.filter_congr
  intro p hp
  simp [destroyKeep, keyIn_of_mem hp]

/-- Witness for C7 (amended): a state with one approved session whose
remote disconnect throws, one approved session that disconnects cleanly,
and one outstanding tracked timer. -/
theorem C7_witness :
    NodupKeys [("u1", staleDemoSession), ("u2", sweepSession "u2" 0)] ∧
    ((destroy (fun u => u == "u1")
        { reg := [("u1", staleDemoSession), ("u2", sweepSession "u2" 0)],
          db := [("u1", staleDemoSession), ("u2", sweepSession "u2" 0)],
          timers := [("t", 3)], cleanupInterval := some 4,
          dbConnected := true }).timers = [("t", 3)] ∧
    (destroy (fun u => u == "u1")
        { reg := [("u1", staleDemoSession), ("u2", sweepSession "u2" 0)],
          db := [("u1", staleDemoSession), ("u2", sweepSession "u2" 0)],
          timers := [("t", 3)], cleanupInterval := some 4,
          dbConnected := true }).cleanupInterval = none ∧
    (destroy (fun u => u == "u1")
        { reg := [("u1", staleDemoSession), ("u2", sweepSession "u2" 0)],
          db := [("u1", staleDemoSession), ("u2", sweepSession "u2" 0)],
          timers := [("t", 3)], cleanupInterval := some 4,
          dbConnected := true }).dbConnected = false ∧
    (destroy (fun u => u == "u1")
        { reg := [("u1", staleDemoSession), ("u2", sweepSession "u2" 0)],
          db := [("u1", staleDemoSession), ("u2", sweepSession "u2" 0)],
          timers := [("t", 3)], cleanupInterval := some 4,
          dbConnected := true }).reg =
      List.filter (fun p => topicTruthy p.2.topic && (p.1 == "u1"))
        [("u1", staleDemoSession), ("u2", sweepSession "u2" 0)]) :=
  ⟨by simp [NodupKeys, List.pairwise_cons],
    C7_destroy_spec (fun u => u == "u1")
      { reg := [("u1", staleDemoSession), ("u2", sweepSession "u2" 0)],
        db := [("u1", staleDemoSession), ("u2", sweepSession "u2" 0)],
        timers := [("t", 3)], cleanupInterval := some 4,
        dbConnected := true }
      (by simp [NodupKeys, List.pairwise_cons])⟩

end WCSDK
